import Mathlib

/-!
Verification development for `config/custom_components/hotword_pocketsphinx.py`.

The component registers a `listen` service whose handler (`async_listen`)
publishes a "listening" state, spawns a worker thread running `listen` — a
read/decode loop over a shared audio device and a pocketsphinx decoder — and
waits on a threading event. A stop-event handler (`async_terminate`) sets a
shared `terminated` flag and sets the same event. Below, the loop is embedded
as a pure function over a script of frame inputs, the handlers as functions on
a coordinator state record, and the thread/event interaction as a small
interleaving machine.
-/

namespace HotwordPocketsphinx

/-- Source constant `DOMAIN = 'hotword_pocketsphinx'`. -/
def DOMAIN : String := "hotword_pocketsphinx"

/-- Source constant `OBJECT_DECODER = '%s.decoder' % DOMAIN`. -/
def OBJECT_DECODER : String := DOMAIN ++ ".decoder"

/-- Source constant `STATE_IDLE = 'idle'`. -/
def STATE_IDLE : String := "idle"

/-- Source constant `STATE_LISTENING = 'listening'`. -/
def STATE_LISTENING : String := "listening"

/-- Source constant `EVENT_HOTWORD_DETECTED = 'hotword_detected'`. -/
def EVENT_HOTWORD_DETECTED : String := "hotword_detected"

/-- Source constant `DEFAULT_BUFFER_SIZE = 2048`. -/
def DEFAULT_BUFFER_SIZE : Nat := 2048

/-- Source `state_attrs` dict: fixed display attributes passed to every
`hass.states.async_set` call. -/
def state_attrs : List (String × String) :=
  [("friendly_name", "Hotword"), ("icon", "mdi:microphone")]

/-- Outcome of one `audio_device.readinto(buf)` call: an error (negative
return value) or a successful read delivering `data` (return value
`data.length >= 0`). -/
inductive ReadResult where
  | err : ReadResult
  | ok (data : List Nat) : ReadResult
deriving DecidableEq, Repr

/-- Bytes delivered by a read outcome (none for an error). -/
def readData : ReadResult → List Nat
  | ReadResult.err => []
  | ReadResult.ok d => d

/-- External input consumed by one loop iteration: the device read outcome,
and the value `decoder.hyp()` returns after `process_raw` on this frame. -/
structure FrameInput where
  read : ReadResult
  hyp : Option String
deriving DecidableEq, Repr

/-- Model of `audio_device.readinto(buf)`: the freshly read bytes overwrite a
prefix of the buffer, the tail keeps its previous (stale) content. -/
def readinto (buf data : List Nat) : List Nat :=
  data.take buf.length ++ buf.drop data.length

/-- Why the `while` loop in `listen` stopped. `terminatedFlag`: the shared
flag was observed true at the top of an iteration. `readError`: `readinto`
returned a negative value. `matched`: the hypothesis equalled the hotword and
the loop hit `break`. `outOfInput`: the input script ran out (artifact of the
finite script; a real device blocks instead). -/
inductive ExitReason where
  | terminatedFlag : ExitReason
  | readError : ExitReason
  | matched : ExitReason
  | outOfInput : ExitReason
deriving DecidableEq, Repr

/-- Observable result of the worker loop. `fed` records the exact byte string
passed to `decoder.process_raw` at each iteration, `bytesReadSeq` the
corresponding `readinto` return values, `snapshots` the value of
`detected_phrase` at the end of each iteration after which the loop kept
running, `exitIter` the iteration index at which the loop exited. -/
structure LoopOut where
  reason : ExitReason
  detected_phrase : Option String
  fed : List (List Nat)
  bytesReadSeq : List Nat
  snapshots : List (Option String)
  exitIter : Nat
deriving DecidableEq, Repr

/-- The `while not terminated and audio_device.readinto(buf) >= 0` loop of the
inner `listen` function, lines 152-160. `flag n` is the value of the shared
`terminated` flag observed at the top of iteration `n`. On a hypothesis the
code runs `with decoder.end_utterance()`: it assigns `detected_phrase`, breaks
if it equals the hotword, and otherwise restarts the utterance and keeps
looping. -/
def listen_loop (hotword : String) (flag : Nat → Bool) :
    Nat → List Nat → Option String → List FrameInput → LoopOut
  | n, _, phrase, [] =>
    if flag n then ⟨ExitReason.terminatedFlag, phrase, [], [], [], n⟩
    else ⟨ExitReason.outOfInput, phrase, [], [], [], n⟩
  | n, _, phrase, ⟨ReadResult.err, _⟩ :: _ =>
    if flag n then ⟨ExitReason.terminatedFlag, phrase, [], [], [], n⟩
    else ⟨ExitReason.readError, phrase, [], [], [], n⟩
  | n, buf, phrase, ⟨ReadResult.ok data, none⟩ :: rest =>
    if flag n then ⟨ExitReason.terminatedFlag, phrase, [], [], [], n⟩
    else
      let buf' := readinto buf data
      let r := listen_loop hotword flag (n + 1) buf' phrase rest
      { r with
        fed := buf' :: r.fed
        bytesReadSeq := data.length :: r.bytesReadSeq
        snapshots := phrase :: r.snapshots }
  | n, buf, phrase, ⟨ReadResult.ok data, some h⟩ :: rest =>
    if flag n then ⟨ExitReason.terminatedFlag, phrase, [], [], [], n⟩
    else
      let buf' := readinto buf data
      if h = hotword then
        ⟨ExitReason.matched, some h, [buf'], [data.length], [], n⟩
      else
        let r := listen_loop hotword flag (n + 1) buf' (some h) rest
        { r with
          fed := buf' :: r.fed
          bytesReadSeq := data.length :: r.bytesReadSeq
          snapshots := some h :: r.snapshots }

/-- Observable actions of one `async_listen` service call, in order. -/
inductive SEv where
  | publish (objectId state : String) (attrs : List (String × String)) : SEv
  | fireEvent (name : String) : SEv
  | deviceClose : SEv
  | signalSet : SEv
deriving DecidableEq, Repr

/-- A whole `async_listen` run: the loop outcome and the ordered trace of
observable actions. -/
structure SessionRun where
  loopOut : LoopOut
  trace : List SEv
deriving DecidableEq, Repr

/-- One `async_listen` service call, lines 139-177. Publishes "listening",
runs the worker (`listen`): the loop, then — leaving the two `with` blocks —
the device is closed and `detected_event.set()` runs. Back on the event loop,
`terminated` is read once more (`termAtWait`); if it is false the handler
joins the thread, publishes "idle" and fires `EVENT_HOTWORD_DETECTED` with
the component name. -/
def async_listen (hotword name : String) (bufSize : Nat) (flag : Nat → Bool)
    (termAtWait : Bool) (inputs : List FrameInput) : SessionRun :=
  let lo := listen_loop hotword flag 0 (List.replicate bufSize 0) none inputs
  let workerTrace := [SEv.publish OBJECT_DECODER STATE_LISTENING state_attrs,
                      SEv.deviceClose, SEv.signalSet]
  let post := if termAtWait then []
              else [SEv.publish OBJECT_DECODER STATE_IDLE state_attrs,
                    SEv.fireEvent name]
  ⟨lo, workerTrace ++ post⟩

/-- Session states as the spec names them; the code has no explicit field,
so the final state is read off the exit reason: a hotword match completes the
session, every other exit is a no-detection end. -/
inductive SessionState where
  | Idle : SessionState
  | Listening : SessionState
  | Completed : SessionState
  | Terminated : SessionState
deriving DecidableEq, Repr

/-- Final session state determined by the loop exit reason. -/
def finalState : ExitReason → SessionState
  | ExitReason.matched => SessionState.Completed
  | _ => SessionState.Terminated

/-- Shared closure state of `async_setup`: the `terminated` and
`detected_phrase` nonlocals, the `detected_event` flag, the published decoder
state, and the number of worker threads spawned and still listening. -/
structure CoordState where
  listeningCount : Nat
  terminated : Bool
  detected_phrase : Option String
  eventSet : Bool
  decoderState : String
deriving DecidableEq, Repr

/-- State right after `async_setup` registered the service and published
"idle" (line 180). -/
def setupState : CoordState :=
  ⟨0, false, none, false, STATE_IDLE⟩

/-- The synchronous head of `async_listen` (lines 141-167): reset the shared
flags, publish "listening", clear the event and start one more worker thread.
There is no busy check and no failure path. -/
def async_listen_start (s : CoordState) : CoordState :=
  { s with
    terminated := false
    detected_phrase := none
    decoderState := STATE_LISTENING
    eventSet := false
    listeningCount := s.listeningCount + 1 }

/-- The stop-event handler `async_terminate` (lines 183-187): set the shared
`terminated` flag, set the event. Total — it cannot fail. -/
def async_terminate (s : CoordState) : CoordState :=
  { s with terminated := true, eventSet := true }

/-- The `(object_id, state, attrs)` triple `async_setup` publishes at line
180, before any listen request. -/
def setup_initial_publication : String × String × List (String × String) :=
  (OBJECT_DECODER, STATE_IDLE, state_attrs)

/-- Atomic steps of the worker thread, for interleaving with the shutdown
handler: enter `with audio_device` (open), one loop iteration (no shared
writes relevant here), leave the `with` block (close), `detected_event.set()`. -/
inductive WAct where
  | openDev : WAct
  | loopIter : WAct
  | closeDev : WAct
  | setEvt : WAct
deriving DecidableEq, Repr

/-- A step of the interleaved system: a worker step, or the shutdown handler
`async_terminate` running on the event loop. -/
inductive Act where
  | w (a : WAct) : Act
  | t : Act
deriving DecidableEq, Repr

/-- Interleaving-machine state: the shared flag, whether the device is open,
and for each `detected_event.set()` performed so far, whether the device was
still open at that moment. -/
structure MState where
  terminated : Bool
  deviceOpen : Bool
  signalAsserts : List Bool
deriving DecidableEq, Repr

/-- Machine state before the worker starts. -/
def initM : MState := ⟨false, false, []⟩

/-- Effect of one worker step. -/
def wstep (m : MState) : WAct → MState
  | WAct.openDev => { m with deviceOpen := true }
  | WAct.loopIter => m
  | WAct.closeDev => { m with deviceOpen := false }
  | WAct.setEvt => { m with signalAsserts := m.signalAsserts ++ [m.deviceOpen] }

/-- Run a sequence of worker steps. -/
def wrun (m : MState) : List WAct → MState
  | [] => m
  | a :: rest => wrun (wstep m a) rest

/-- Effect of one interleaved step; `async_terminate` sets the flag and
asserts the signal immediately, whatever the worker is doing. -/
def mstep (m : MState) : Act → MState
  | Act.w a => wstep m a
  | Act.t => { m with terminated := true,
                      signalAsserts := m.signalAsserts ++ [m.deviceOpen] }

/-- Run an interleaving schedule. -/
def mrun (m : MState) : List Act → MState
  | [] => m
  | a :: rest => mrun (mstep m a) rest

/-- The worker's own schedule for a session whose loop runs `k` iterations
and no shutdown arrives: open the device, loop, close the device, set the
event. -/
def workerSched (k : Nat) : List Act :=
  Act.w WAct.openDev ::
    (List.replicate k (Act.w WAct.loopIter) ++ [Act.w WAct.closeDev, Act.w WAct.setEvt])

/-- An interleaving in which the stop event fires right after the device
opens: the worker observes the flag at the top of its first iteration and
exits to its teardown. -/
def termSched : List Act :=
  [Act.w WAct.openDev, Act.t, Act.w WAct.closeDev, Act.w WAct.setEvt]

/-! Helper lemmas about the interleaving machine. -/

lemma wstep_terminated (m : MState) (a : WAct) : (wstep m a).terminated = m.terminated := by
  cases a <;> rfl

lemma wrun_terminated (ops : List WAct) :
    ∀ m : MState, (wrun m ops).terminated = m.terminated := by
  induction ops with
  | nil => intro m; rfl
  | cons a rest ih =>
    intro m
    rw [wrun, ih, wstep_terminated]

lemma mrun_append (l1 l2 : List Act) :
    ∀ m : MState, mrun m (l1 ++ l2) = mrun (mrun m l1) l2 := by
  induction l1 with
  | nil => intro m; rfl
  | cons a rest ih =>
    intro m
    rw [List.cons_append, mrun, mrun, ih]

lemma mrun_loopIter (k : Nat) :
    ∀ m : MState, mrun m (List.replicate k (Act.w WAct.loopIter)) = m := by
  induction k with
  | zero => intro m; rfl
  | succ k ih =>
    intro m
    rw [List.replicate_succ, mrun, ih]
    rfl

/-- Claim C1 (counterexample): starting from the post-setup state, a first
listen call leaves the decoder state "listening", and a second listen call
made in that state does not fail: it spawns a second worker, so two sessions
are listening at once. -/
theorem c1_counterexample :
    (async_listen_start setupState).decoderState = STATE_LISTENING ∧
    (async_listen_start (async_listen_start setupState)).listeningCount = 2 := by
  constructor <;> rfl

/-- Claim C1 (amended): `async_listen` contains no busy check and no failure
path; every call, whatever the current state — including while a session is
already listening — unconditionally resets the shared flags, publishes
"listening" and starts one more concurrent worker. -/
theorem c1_no_busy_check (s : CoordState) :
    (async_listen_start s).listeningCount = s.listeningCount + 1 ∧
    (async_listen_start s).decoderState = STATE_LISTENING ∧
    (async_listen_start s).terminated = false ∧
    (async_listen_start s).eventSet = false :=
  ⟨rfl, rfl, rfl, rfl⟩

/-- Claim C8 (confirmed): `async_terminate` is total, sets the `terminated`
flag, is idempotent, and the flag then stays true across any sequence of
worker-loop steps of the current session. -/
theorem c8_terminate_idempotent_monotone (s : CoordState) (m : MState) (ops : List WAct) :
    (async_terminate s).terminated = true ∧
    async_terminate (async_terminate s) = async_terminate s ∧
    (wrun { m with terminated := true } ops).terminated = true := by
  refine ⟨rfl, rfl, ?_⟩
  rw [wrun_terminated]

/-- Claim C9 (confirmed): every `async_listen` call resets the shared
termination flag to false, resets `detected_phrase` to `None`, and clears the
completion event; hence a shutdown armed while no session was listening is
discarded by the next listen call. -/
theorem c9_listen_resets_shared_state (s : CoordState) :
    (async_listen_start s).terminated = false ∧
    (async_listen_start s).detected_phrase = none ∧
    (async_listen_start s).eventSet = false ∧
    (async_listen_start (async_terminate s)).terminated = false :=
  ⟨rfl, rfl, rfl, rfl⟩

/-- Claim C6 (counterexample): under the interleaving in which the stop event
fires right after the device opens, the completion event is set twice — once
by `async_terminate` while the device is still open, once by the worker after
closing it — so it is neither asserted exactly once nor only after the
device is closed. -/
theorem c6_counterexample :
    (mrun initM termSched).signalAsserts = [true, false] ∧
    ¬((mrun initM termSched).signalAsserts.length = 1 ∧
      (mrun initM termSched).signalAsserts.all (fun b => !b) = true) := by
  constructor
  · rfl
  · intro h
    exact absurd (h.1) (by decide)

/-- Claim C6 (amended): in a run with no shutdown request the completion
event is asserted exactly once, by the worker, after the device is closed;
a concurrent `async_terminate` additionally asserts it immediately, possibly
while the device is still open. -/
theorem c6_no_shutdown_single_assert (k : Nat) :
    (mrun initM (workerSched k)).signalAsserts = [false] ∧
    (mrun initM (workerSched k)).deviceOpen = false := by
  have h : mrun initM (workerSched k)
      = mrun (mrun (mstep initM (Act.w WAct.openDev))
          (List.replicate k (Act.w WAct.loopIter)))
          [Act.w WAct.closeDev, Act.w WAct.setEvt] := by
    rw [workerSched, mrun, mrun_append]
  rw [h, mrun_loopIter]
  constructor <;> rfl

/-- Frame script of the read-error scenario: three successful frames with no
hypothesis, then a failing device read. -/
def c2_inputs : List FrameInput :=
  [⟨ReadResult.ok [1], none⟩, ⟨ReadResult.ok [2], none⟩,
   ⟨ReadResult.ok [3], none⟩, ⟨ReadResult.err, none⟩]

/-- Claim C2 (code bug, evaluated at the failing input): when the device read
fails after three clean frames, the loop exits with a read error, no phrase
was detected and the device is closed — but, because the post-wait branch
only tests `terminated`, the handler still publishes "idle" and fires the
`hotword_detected` notification. -/
theorem c2_read_error_fires_notification :
    (async_listen "wakeword" "hotword_pocketsphinx" 1 (fun _ => false) false
        c2_inputs).loopOut.reason = ExitReason.readError ∧
    (async_listen "wakeword" "hotword_pocketsphinx" 1 (fun _ => false) false
        c2_inputs).loopOut.detected_phrase = none ∧
    SEv.deviceClose ∈ (async_listen "wakeword" "hotword_pocketsphinx" 1
        (fun _ => false) false c2_inputs).trace ∧
    SEv.fireEvent "hotword_pocketsphinx" ∈ (async_listen "wakeword"
        "hotword_pocketsphinx" 1 (fun _ => false) false c2_inputs).trace ∧
    SEv.publish OBJECT_DECODER STATE_IDLE state_attrs ∈ (async_listen "wakeword"
        "hotword_pocketsphinx" 1 (fun _ => false) false c2_inputs).trace := by
  refine ⟨rfl, rfl, ?_, ?_, ?_⟩ <;> decide

/-- Frame script of the detection scenario: hypotheses "foo", "bar",
"wakeword" on three consecutive frames. -/
def c4_inputs : List FrameInput :=
  [⟨ReadResult.ok [1], some "foo"⟩, ⟨ReadResult.ok [2], some "bar"⟩,
   ⟨ReadResult.ok [3], some "wakeword"⟩]

/-- Claim C4 (confirmed): with hypotheses "foo", "bar", "wakeword" and
hotword "wakeword", the session completes via match with `detected_phrase`
"wakeword", all three frames are read (the non-matching hypotheses do not end
the session), "idle" is published and exactly one detection notification is
fired, carrying the component name. -/
theorem c4_detection_sequence :
    (async_listen "wakeword" "hotword_pocketsphinx" 1 (fun _ => false) false
        c4_inputs).loopOut.reason = ExitReason.matched ∧
    (async_listen "wakeword" "hotword_pocketsphinx" 1 (fun _ => false) false
        c4_inputs).loopOut.detected_phrase = some "wakeword" ∧
    finalState (async_listen "wakeword" "hotword_pocketsphinx" 1 (fun _ => false)
        false c4_inputs).loopOut.reason = SessionState.Completed ∧
    (async_listen "wakeword" "hotword_pocketsphinx" 1 (fun _ => false) false
        c4_inputs).loopOut.bytesReadSeq = [1, 1, 1] ∧
    SEv.publish OBJECT_DECODER STATE_IDLE state_attrs ∈ (async_listen "wakeword"
        "hotword_pocketsphinx" 1 (fun _ => false) false c4_inputs).trace ∧
    ((async_listen "wakeword" "hotword_pocketsphinx" 1 (fun _ => false) false
        c4_inputs).trace.count (SEv.fireEvent "hotword_pocketsphinx")) = 1 := by
  refine ⟨rfl, rfl, rfl, rfl, ?_, ?_⟩ <;> decide

/-- Claim C5 (counterexample): with hotword "wakeword", a non-matching
hypothesis "foo" on the first frame sets `detected_phrase` while the loop
keeps running (snapshot `some "foo"` of an iteration the session survived),
and when the session then ends via a read error — not via a match —
`detected_phrase` is still the non-null `some "foo"`. -/
theorem c5_counterexample :
    (listen_loop "wakeword" (fun _ => false) 0 (List.replicate 1 0) none
        [⟨ReadResult.ok [1], some "foo"⟩, ⟨ReadResult.err, none⟩]).reason
      = ExitReason.readError ∧
    (listen_loop "wakeword" (fun _ => false) 0 (List.replicate 1 0) none
        [⟨ReadResult.ok [1], some "foo"⟩, ⟨ReadResult.err, none⟩]).detected_phrase
      = some "foo" ∧
    (listen_loop "wakeword" (fun _ => false) 0 (List.replicate 1 0) none
        [⟨ReadResult.ok [1], some "foo"⟩, ⟨ReadResult.ok [2], some "wakeword"⟩]).snapshots
      = [some "foo"] := by
  refine ⟨?_, ?_, ?_⟩ <;> decide

/-- Claim C7 (counterexample): with buffer size 4 and a read that delivers
only 2 bytes, the decoder is fed the whole 4-byte buffer — the 2 fresh bytes
followed by 2 stale bytes — although `readinto` reported 2 bytes read, so the
per-iteration fed lengths differ from the reported byte counts. -/
theorem c7_counterexample :
    (listen_loop "w" (fun _ => false) 0 (List.replicate 4 0) none
        [⟨ReadResult.ok [1, 2], none⟩]).fed = [[1, 2, 0, 0]] ∧
    (listen_loop "w" (fun _ => false) 0 (List.replicate 4 0) none
        [⟨ReadResult.ok [1, 2], none⟩]).bytesReadSeq = [2] ∧
    ¬((listen_loop "w" (fun _ => false) 0 (List.replicate 4 0) none
        [⟨ReadResult.ok [1, 2], none⟩]).fed.map List.length
      = (listen_loop "w" (fun _ => false) 0 (List.replicate 4 0) none
        [⟨ReadResult.ok [1, 2], none⟩]).bytesReadSeq) := by
  refine ⟨?_, ?_, ?_⟩ <;> decide

/-! Helper lemmas about the listen loop, by induction on the frame script. -/

lemma listen_loop_term (hw : String) (flag : Nat → Bool) :
    ∀ (inputs : List FrameInput) (n : Nat) (buf : List Nat) (phrase : Option String),
      (listen_loop hw flag n buf phrase inputs).reason = ExitReason.terminatedFlag →
      flag (listen_loop hw flag n buf phrase inputs).exitIter = true ∧
      (listen_loop hw flag n buf phrase inputs).bytesReadSeq.length + n
        = (listen_loop hw flag n buf phrase inputs).exitIter := by
  intro inputs
  induction inputs with
  | nil =>
    intro n buf phrase h
    cases hfl : flag n
    · simp [listen_loop, hfl] at h
    · simp [listen_loop, hfl]
  | cons inp rest ih =>
    intro n buf phrase h
    obtain ⟨rd, hy⟩ := inp
    cases hfl : flag n
    · cases rd with
      | err => simp [listen_loop, hfl] at h
      | ok data =>
        cases hy with
        | none =>
          simp only [listen_loop, hfl, Bool.false_eq_true, if_false] at h ⊢
          have := ih (n + 1) (readinto buf data) phrase h
          refine ⟨this.1, ?_⟩
          simp only [List.length_cons]
          omega
        | some hy =>
          by_cases hm : hy = hw
          · simp [listen_loop, hfl, hm] at h
          · simp only [listen_loop, hfl, Bool.false_eq_true, if_false, hm] at h ⊢
            have := ih (n + 1) (readinto buf data) (some hy) h
            refine ⟨this.1, ?_⟩
            simp only [List.length_cons]
            omega
    · cases rd with
      | err => simp [listen_loop, hfl]
      | ok data =>
        cases hy with
        | none => simp [listen_loop, hfl]
        | some hy => simp [listen_loop, hfl]

lemma listen_loop_matched (hw : String) (flag : Nat → Bool) :
    ∀ (inputs : List FrameInput) (n : Nat) (buf : List Nat) (phrase : Option String),
      (listen_loop hw flag n buf phrase inputs).reason = ExitReason.matched →
      (listen_loop hw flag n buf phrase inputs).detected_phrase = some hw := by
  intro inputs
  induction inputs with
  | nil =>
    intro n buf phrase h
    cases hfl : flag n <;> simp [listen_loop, hfl] at h
  | cons inp rest ih =>
    intro n buf phrase h
    obtain ⟨rd, hy⟩ := inp
    cases hfl : flag n
    · cases rd with
      | err => simp [listen_loop, hfl] at h
      | ok data =>
        cases hy with
        | none =>
          simp only [listen_loop, hfl, Bool.false_eq_true, if_false] at h ⊢
          exact ih (n + 1) (readinto buf data) phrase h
        | some hy =>
          by_cases hm : hy = hw
          · simp [listen_loop, hfl, hm]
          · simp only [listen_loop, hfl, Bool.false_eq_true, if_false, hm] at h ⊢
            exact ih (n + 1) (readinto buf data) (some hy) h
    · cases rd with
      | err => simp [listen_loop, hfl] at h
      | ok data =>
        cases hy with
        | none => simp [listen_loop, hfl] at h
        | some hy => simp [listen_loop, hfl] at h

lemma readinto_length (buf data : List Nat) (h : data.length ≤ buf.length) :
    (readinto buf data).length = buf.length := by
  simp only [readinto, List.length_append, List.length_take, List.length_drop]
  omega

lemma listen_loop_fed_length (hw : String) (flag : Nat → Bool) :
    ∀ (inputs : List FrameInput) (n : Nat) (buf : List Nat) (phrase : Option String),
      (∀ inp ∈ inputs, (readData inp.read).length ≤ buf.length) →
      ∀ f ∈ (listen_loop hw flag n buf phrase inputs).fed, f.length = buf.length := by
  intro inputs
  induction inputs with
  | nil =>
    intro n buf phrase _ f hf
    cases hfl : flag n <;> simp [listen_loop, hfl] at hf
  | cons inp rest ih =>
    intro n buf phrase hin f hf
    have hhead : (readData inp.read).length ≤ buf.length :=
      hin inp (List.mem_cons_self inp rest)
    have htail : ∀ q ∈ rest, (readData q.read).length ≤ buf.length := by
      intro q hq
      exact hin q (List.mem_cons_of_mem inp hq)
    obtain ⟨rd, hy⟩ := inp
    cases hfl : flag n
    · cases rd with
      | err => simp [listen_loop, hfl] at hf
      | ok data =>
        have hdl : data.length ≤ buf.length := hhead
        have hbl : (readinto buf data).length = buf.length := readinto_length buf data hdl
        have hrest : ∀ q ∈ rest, (readData q.read).length ≤ (readinto buf data).length := by
          intro q hq
          rw [hbl]
          exact htail q hq
        cases hy with
        | none =>
          simp only [listen_loop, hfl, Bool.false_eq_true, if_false] at hf
          rcases List.mem_cons.mp hf with heq | hmem
          · rw [heq]; exact hbl
          · have := ih (n + 1) (readinto buf data) phrase hrest f hmem
            rw [this, hbl]
        | some hy =>
          by_cases hm : hy = hw
          · simp only [listen_loop, hfl, Bool.false_eq_true, if_false, hm, if_true] at hf
            simp only [List.mem_singleton] at hf
            rw [hf]; exact hbl
          · simp only [listen_loop, hfl, Bool.false_eq_true, if_false, hm] at hf
            rcases List.mem_cons.mp hf with heq | hmem
            · rw [heq]; exact hbl
            · have := ih (n + 1) (readinto buf data) (some hy) hrest f hmem
              rw [this, hbl]
    · cases rd with
      | err => simp [listen_loop, hfl] at hf
      | ok data =>
        cases hy with
        | none => simp [listen_loop, hfl] at hf
        | some hy => simp [listen_loop, hfl] at hf

/-- Claim C3 (confirmed): if the loop exits because the termination flag was
observed at the top of an iteration, then the flag was indeed true at the
exit iteration, exactly the iterations before it performed a device read (no
further frame is read), the session ends as Terminated, the device is closed,
and the trace carries no detection notification and no "idle" publication. -/
theorem c3_termination_clean_exit (hw nm : String) (bs : Nat) (flag : Nat → Bool)
    (inputs : List FrameInput)
    (h : (listen_loop hw flag 0 (List.replicate bs 0) none inputs).reason
      = ExitReason.terminatedFlag) :
    flag (listen_loop hw flag 0 (List.replicate bs 0) none inputs).exitIter = true ∧
    (listen_loop hw flag 0 (List.replicate bs 0) none inputs).bytesReadSeq.length
      = (listen_loop hw flag 0 (List.replicate bs 0) none inputs).exitIter ∧
    finalState (listen_loop hw flag 0 (List.replicate bs 0) none inputs).reason
      = SessionState.Terminated ∧
    SEv.deviceClose ∈ (async_listen hw nm bs flag true inputs).trace ∧
    (∀ s, SEv.fireEvent s ∉ (async_listen hw nm bs flag true inputs).trace) ∧
    SEv.publish OBJECT_DECODER STATE_IDLE state_attrs
      ∉ (async_listen hw nm bs flag true inputs).trace := by
  have hterm := listen_loop_term hw flag inputs 0 (List.replicate bs 0) none h
  have htr : (async_listen hw nm bs flag true inputs).trace
      = [SEv.publish OBJECT_DECODER STATE_LISTENING state_attrs,
         SEv.deviceClose, SEv.signalSet] := rfl
  refine ⟨hterm.1, ?_, ?_, ?_, ?_, ?_⟩
  · have h2 := hterm.2
    omega
  · rw [h]
    rfl
  · rw [htr]
    simp
  · intro s
    rw [htr]
    simp
  · rw [htr]
    simp [STATE_IDLE, STATE_LISTENING]

/-- Script for the C3 witness: two clean frames, the stop flag turning true
from iteration 1 on. -/
def c3w_inputs : List FrameInput :=
  [⟨ReadResult.ok [5], none⟩, ⟨ReadResult.ok [6], none⟩]

/-- Witness for C3 at a concrete session: flag set from iteration 1, loop
exits at iteration 1 having read exactly one frame. -/
theorem c3_termination_clean_exit_witness :
    ((listen_loop "w" (fun n => decide (1 ≤ n)) 0 (List.replicate 1 0) none
        c3w_inputs).reason = ExitReason.terminatedFlag) ∧
    ((fun n => decide (1 ≤ n))
        (listen_loop "w" (fun n => decide (1 ≤ n)) 0 (List.replicate 1 0) none
          c3w_inputs).exitIter = true ∧
     (listen_loop "w" (fun n => decide (1 ≤ n)) 0 (List.replicate 1 0) none
        c3w_inputs).bytesReadSeq.length
       = (listen_loop "w" (fun n => decide (1 ≤ n)) 0 (List.replicate 1 0) none
          c3w_inputs).exitIter ∧
     finalState (listen_loop "w" (fun n => decide (1 ≤ n)) 0 (List.replicate 1 0)
        none c3w_inputs).reason = SessionState.Terminated ∧
     SEv.deviceClose ∈ (async_listen "w" "n" 1 (fun n => decide (1 ≤ n)) true
        c3w_inputs).trace ∧
     (∀ s, SEv.fireEvent s ∉ (async_listen "w" "n" 1 (fun n => decide (1 ≤ n))
        true c3w_inputs).trace) ∧
     SEv.publish OBJECT_DECODER STATE_IDLE state_attrs
       ∉ (async_listen "w" "n" 1 (fun n => decide (1 ≤ n)) true c3w_inputs).trace) :=
  ⟨by decide,
   c3_termination_clean_exit "w" "n" 1 (fun n => decide (1 ≤ n)) c3w_inputs (by decide)⟩

/-- Claim C5 (amended): when the session ends via a phrase match,
`detected_phrase` equals the configured hotword. (The original invariant —
non-null only at a match-completed session — fails: the loop stores every
hypothesis, matching or not; see the counterexample.) -/
theorem c5_match_sets_hotword (hw : String) (flag : Nat → Bool) (n : Nat)
    (buf : List Nat) (phrase : Option String) (inputs : List FrameInput)
    (h : (listen_loop hw flag n buf phrase inputs).reason = ExitReason.matched) :
    (listen_loop hw flag n buf phrase inputs).detected_phrase = some hw :=
  listen_loop_matched hw flag inputs n buf phrase h

/-- Witness for the amended C5 at a concrete matching session. -/
theorem c5_match_sets_hotword_witness :
    ((listen_loop "wakeword" (fun _ => false) 0 (List.replicate 1 0) none
        [⟨ReadResult.ok [1], some "wakeword"⟩]).reason = ExitReason.matched) ∧
    (listen_loop "wakeword" (fun _ => false) 0 (List.replicate 1 0) none
        [⟨ReadResult.ok [1], some "wakeword"⟩]).detected_phrase = some "wakeword" :=
  ⟨by decide,
   c5_match_sets_hotword "wakeword" (fun _ => false) 0 (List.replicate 1 0) none
     [⟨ReadResult.ok [1], some "wakeword"⟩] (by decide)⟩

/-- Claim C7 (amended): provided every read delivers at most the buffer size,
each call to `process_raw` feeds the decoder the entire buffer-size byte
buffer — not the `bytesRead` bytes the preceding `readinto` reported. -/
theorem c7_whole_buffer_each_iteration (hw : String) (flag : Nat → Bool) (bs : Nat)
    (inputs : List FrameInput)
    (hin : ∀ inp ∈ inputs, (readData inp.read).length ≤ bs) :
    ∀ f ∈ (listen_loop hw flag 0 (List.replicate bs 0) none inputs).fed,
      f.length = bs := by
  have hb : (List.replicate bs (0 : Nat)).length = bs := List.length_replicate bs 0
  have hin' : ∀ inp ∈ inputs,
      (readData inp.read).length ≤ (List.replicate bs (0 : Nat)).length := by
    intro q hq
    rw [hb]
    exact hin q hq
  intro f hf
  have := listen_loop_fed_length hw flag inputs 0 (List.replicate bs 0) none hin' f hf
  rw [this, hb]

/-- Witness for the amended C7: a 1-byte read into a 2-byte buffer still
feeds 2 bytes. -/
theorem c7_whole_buffer_witness :
    (∀ inp ∈ ([⟨ReadResult.ok [9], none⟩] : List FrameInput),
      (readData inp.read).length ≤ 2) ∧
    (∀ f ∈ (listen_loop "w" (fun _ => false) 0 (List.replicate 2 0) none
        [⟨ReadResult.ok [9], none⟩]).fed, f.length = 2) :=
  ⟨by decide,
   c7_whole_buffer_each_iteration "w" (fun _ => false) 2
     [⟨ReadResult.ok [9], none⟩] (by decide)⟩

/-- Claim C10 (confirmed): the publication made at setup is the decoder
object set to "idle" with the fixed display attributes, and every status
publication any session run makes carries those same attributes for the same
object. -/
theorem c10_status_attrs (hw nm : String) (bs : Nat) (flag : Nat → Bool)
    (tw : Bool) (inputs : List FrameInput) (o st : String)
    (a : List (String × String))
    (h : SEv.publish o st a ∈ (async_listen hw nm bs flag tw inputs).trace) :
    setup_initial_publication = (OBJECT_DECODER, STATE_IDLE, state_attrs) ∧
    state_attrs = [("friendly_name", "Hotword"), ("icon", "mdi:microphone")] ∧
    o = OBJECT_DECODER ∧ a = state_attrs := by
  refine ⟨rfl, rfl, ?_⟩
  cases tw
  · simp [async_listen] at h
    rcases h with ⟨ho, _, ha⟩ | ⟨ho, _, ha⟩ <;> exact ⟨ho, ha⟩
  · simp [async_listen] at h
    obtain ⟨ho, _, ha⟩ := h
    exact ⟨ho, ha⟩

/-- Witness for C10 at the "listening" publication of a concrete run. -/
theorem c10_status_attrs_witness :
    (SEv.publish OBJECT_DECODER STATE_LISTENING state_attrs
      ∈ (async_listen "w" "n" 1 (fun _ => false) false []).trace) ∧
    (setup_initial_publication = (OBJECT_DECODER, STATE_IDLE, state_attrs) ∧
     state_attrs = [("friendly_name", "Hotword"), ("icon", "mdi:microphone")] ∧
     OBJECT_DECODER = OBJECT_DECODER ∧ state_attrs = state_attrs) :=
  ⟨by decide,
   c10_status_attrs "w" "n" 1 (fun _ => false) false [] OBJECT_DECODER
     STATE_LISTENING state_attrs (by decide)⟩

end HotwordPocketsphinx
